import Mathlib

/-!
Shallow embedding of the socketpair shim (src/shims/unix/socket.rs): the shared
byte buffer with its vector clock and live-writer flag, the endpoint operations
read, write, close and the epoll readiness query, a two-endpoint world for
whole-pair operation sequences, and the socketpair creation syscall validation.
All definitions are translated from the Rust source; theorems settle the
specification claims about them.
-/

namespace MiriSocket

/-- The maximum capacity of the socketpair buffer in bytes
(source constant MAX_SOCKETPAIR_BUFFER_CAPACITY). -/
def MAX_SOCKETPAIR_BUFFER_CAPACITY : Nat := 212992

/-- Vector clock: a list of per-thread logical timestamps. Models the external
VClock type at the interface this core uses. -/
abbrev VClock := List Nat

/-- Pointwise maximum of two vector clocks; models VClock::join, which merges
causal history (the shorter clock is implicitly padded with zeros). -/
def VClock.join : VClock → VClock → VClock
  | [], ys => ys
  | xs, [] => xs
  | x :: xs, y :: ys => max x y :: VClock.join xs ys

/-- Pointwise order on vector clocks (componentwise less-or-equal after implicit
zero padding on the right argument only: a longer left clock is not below a
shorter right one). -/
def VClock.le : VClock → VClock → Bool
  | [], _ => true
  | _ :: _, [] => false
  | x :: xs, y :: ys => Nat.ble x y && VClock.le xs ys

/-- The shared buffer of one direction of a socketpair (source struct Buffer):
a FIFO byte queue, the accumulated clock of its writers, and the flag that is
true while at least one endpoint writing into this buffer still exists. Bytes
are modelled as Nat values. -/
structure Buffer where
  buf : List Nat
  clock : VClock
  buf_has_writer : Bool
  deriving DecidableEq

/-- A freshly created buffer: empty queue, default clock, live writer. -/
def Buffer.fresh : Buffer :=
  { buf := [], clock := [], buf_has_writer := true }

/-- The io error kinds this core produces. -/
inductive IoErrorKind where
  | WouldBlock
  | BrokenPipe
  deriving DecidableEq

/-- Outcome of one endpoint operation, flattening the source's
InterpResult of io::Result: success n is Ok(Ok(n)), ioError e is Ok(Err(e)),
and unsupported msg is the interpreter-level throw_unsup_format error. -/
inductive OpResult where
  | success : Nat → OpResult
  | ioError : IoErrorKind → OpResult
  | unsupported : String → OpResult
  deriving DecidableEq

/-- Everything SocketPair::read produces: the returned result, the read buffer
after the call, the clock acquired by the calling thread (none when no
synchronization happened), and the bytes copied out to the caller. -/
structure ReadEffect where
  result : OpResult
  buffer : Buffer
  acquired : Option VClock
  data : List Nat
  deriving DecidableEq

/-- Everything SocketPair::write produces: the returned result and the write
target buffer after the call (none when the weak reference did not resolve,
i.e. all read ends are gone). -/
structure WriteEffect where
  result : OpResult
  buffer : Option Buffer
  deriving DecidableEq

/-- SocketPair::read. Arguments: the endpoint's is_nonblock flag, its own
read buffer, and the length of the caller's destination slice. A zero-length
request succeeds immediately; on an empty buffer the outcome depends on
buf_has_writer and is_nonblock; otherwise the thread acquires the buffer's
clock and bytes are dequeued from the front. The dequeue count here is
idealized to min(request, len); the source's single VecDeque read call
actually transfers at most the front contiguous ring slice, which is modelled
exactly by SocketPair.read_vecdeque below. Statements that depend on the
per-call count are made about SocketPair.read_vecdeque; the statements made
about this definition use only behavior the two models share (the branch
structure, clock and flag handling, dequeue at the head, a positive count on
a non-empty buffer, and the queue only shrinking). -/
def SocketPair.read (is_nonblock : Bool) (readbuf : Buffer)
    (request_byte_size : Nat) : ReadEffect :=
  if request_byte_size = 0 then
    { result := .success 0, buffer := readbuf, acquired := none, data := [] }
  else if readbuf.buf.isEmpty then
    if !readbuf.buf_has_writer then
      { result := .success 0, buffer := readbuf, acquired := none, data := [] }
    else if is_nonblock then
      { result := .ioError .WouldBlock, buffer := readbuf, acquired := none,
        data := [] }
    else
      { result := .unsupported "socketpair read: blocking is not supported yet",
        buffer := readbuf, acquired := none, data := [] }
  else
    let actual_read_size := min request_byte_size readbuf.buf.length
    { result := .success actual_read_size,
      buffer := { readbuf with buf := readbuf.buf.drop actual_read_size },
      acquired := some readbuf.clock,
      data := readbuf.buf.take actual_read_size }

/-- SocketPair::write. Arguments: the endpoint's is_nonblock flag, the upgrade
of its weak write-target reference (none when all read ends are gone), the
bytes to write, and the thread's released clock (ecx.release_clock()). A
zero-length write succeeds before the broken-pipe check; an unresolved target
is BrokenPipe; a full buffer is WouldBlock or the unsupported-blocking throw;
otherwise the released clock is joined into the buffer's clock and
min(len, available_space) bytes are appended at the tail. The source's
strict_sub (which would panic past capacity) is modelled by truncating Nat
subtraction; the capacity invariant proved below keeps the two equal on all
reachable states. -/
def SocketPair.write (is_nonblock : Bool) (writebuf : Option Buffer)
    (bytes : List Nat) (released : Option VClock) : WriteEffect :=
  if bytes.length = 0 then
    { result := .success 0, buffer := writebuf }
  else
    match writebuf with
    | none => { result := .ioError .BrokenPipe, buffer := none }
    | some wb =>
      let data_size := wb.buf.length
      let available_space := MAX_SOCKETPAIR_BUFFER_CAPACITY - data_size
      if available_space = 0 then
        if is_nonblock then
          { result := .ioError .WouldBlock, buffer := some wb }
        else
          { result := .unsupported
              "socketpair write: blocking is not supported yet",
            buffer := some wb }
      else
        let wb2 :=
          match released with
          | some clock => { wb with clock := VClock.join wb.clock clock }
          | none => wb
        let actual_write_size := min bytes.length available_space
        { result := .success actual_write_size,
          buffer := some { wb2 with
            buf := wb2.buf ++ bytes.take actual_write_size } }

/-- The three readiness bits the source reports (EpollReadyEvents). -/
structure EpollReadyEvents where
  epollin : Bool
  epollout : Bool
  epollrdhup : Bool
  deriving DecidableEq

/-- EpollReadyEvents::new: all bits clear. -/
def EpollReadyEvents.new : EpollReadyEvents :=
  { epollin := false, epollout := false, epollrdhup := false }

/-- SocketPair::get_epoll_ready_events. Arguments: the endpoint's own read
buffer, the upgrade of its weak write-target reference, and whether the weak
peer_fd reference still upgrades. Pure query, mirrored block by block:
epollin from a non-empty read buffer, epollout from spare capacity in the
resolved write target, and when the peer fd is gone both epollrdhup and
epollin are set. -/
def SocketPair.get_epoll_ready_events (readbuf : Buffer)
    (writebuf : Option Buffer) (peer_fd_alive : Bool) : EpollReadyEvents :=
  let e0 := EpollReadyEvents.new
  let e1 := if !readbuf.buf.isEmpty then { e0 with epollin := true } else e0
  let e2 :=
    match writebuf with
    | some wb =>
      if MAX_SOCKETPAIR_BUFFER_CAPACITY - wb.buf.length ≠ 0 then
        { e1 with epollout := true }
      else e1
    | none => e1
  if !peer_fd_alive then { e2 with epollrdhup := true, epollin := true } else e2

/-- SocketPair::close, at the interface of the buffer it writes into: the call
never fails (the source returns Ok(Ok(()))), and when the weak write-target
reference still resolves it clears that buffer's buf_has_writer flag, touching
nothing else. The first component models the Ok(Ok(())) return. -/
def SocketPair.close (writebuf : Option Buffer) : OpResult × Option Buffer :=
  (.success 0,
    match writebuf with
    | some wb => some { wb with buf_has_writer := false }
    | none => none)

/-- The observable state of one connected pair. buf1 is written by endpoint 0
and owned (read) by endpoint 1; buf2 is written by endpoint 1 and owned by
endpoint 0. An endpoint's alive flag is cleared when the descriptor table
drops it; because a buffer's only strong reference is its reading endpoint's
readbuf field, buf1 is resolvable exactly while fd1 is alive and buf2 exactly
while fd0 is alive, and likewise endpoint i's weak peer_fd reference resolves
exactly while the other endpoint is alive. The byte contents of a dead buffer
are retained in the model but unreachable by every operation. -/
structure World where
  buf1 : Buffer
  buf2 : Buffer
  fd0_alive : Bool
  fd1_alive : Bool
  is_nonblock : Bool
  deriving DecidableEq

/-- The world right after socketpair creation: two fresh buffers, both
endpoints alive, sharing the requested non-blocking mode. -/
def World.fresh (nb : Bool) : World :=
  { buf1 := Buffer.fresh, buf2 := Buffer.fresh, fd0_alive := true,
    fd1_alive := true, is_nonblock := nb }

/-- One operation on a pair. The endpoint is selected by a Bool (false is
endpoint 0). owrite carries the thread's released clock as an input, since
release_clock is read from the surrounding interpreter. oquery is the pure
readiness query. -/
inductive Op where
  | oread : Bool → Nat → Op
  | owrite : Bool → List Nat → Option VClock → Op
  | oclose : Bool → Op
  | oquery : Bool → Op
  deriving DecidableEq

/-- Apply one operation to the world. Operations on an endpoint that is no
longer alive cannot be issued through the descriptor table and leave the
world unchanged. For a write, the weak write-target reference upgrades
exactly when the peer endpoint (the buffer's owner) is alive; for a close,
the same upgrade guards clearing buf_has_writer, and afterwards the closing
endpoint's own buffer loses its last strong reference. -/
def World.applyOp (w : World) (op : Op) : World :=
  match op with
  | .oread ep n =>
    match ep with
    | false =>
      if w.fd0_alive then
        { w with buf2 := (SocketPair.read w.is_nonblock w.buf2 n).buffer }
      else w
    | true =>
      if w.fd1_alive then
        { w with buf1 := (SocketPair.read w.is_nonblock w.buf1 n).buffer }
      else w
  | .owrite ep bytes released =>
    match ep with
    | false =>
      if w.fd0_alive then
        match (SocketPair.write w.is_nonblock
            (if w.fd1_alive then some w.buf1 else none) bytes released).buffer
          with
        | some b => { w with buf1 := b }
        | none => w
      else w
    | true =>
      if w.fd1_alive then
        match (SocketPair.write w.is_nonblock
            (if w.fd0_alive then some w.buf2 else none) bytes released).buffer
          with
        | some b => { w with buf2 := b }
        | none => w
      else w
  | .oclose ep =>
    match ep with
    | false =>
      if w.fd0_alive then
        { w with
          fd0_alive := false,
          buf1 :=
            if w.fd1_alive then { w.buf1 with buf_has_writer := false }
            else w.buf1 }
      else w
    | true =>
      if w.fd1_alive then
        { w with
          fd1_alive := false,
          buf2 :=
            if w.fd0_alive then { w.buf2 with buf_has_writer := false }
            else w.buf2 }
      else w
  | .oquery _ => w

/-- The libc constants socketpair evaluates, as 32-bit patterns. -/
structure LibcC where
  AF_UNIX : Nat
  AF_LOCAL : Nat
  SOCK_STREAM : Nat
  SOCK_NONBLOCK : Nat
  SOCK_CLOEXEC : Nat
  deriving DecidableEq

/-- The values of those constants on Linux targets. -/
def linuxC : LibcC :=
  { AF_UNIX := 1, AF_LOCAL := 1, SOCK_STREAM := 1, SOCK_NONBLOCK := 2048,
    SOCK_CLOEXEC := 524288 }

/-- All 32 bits set; Rust's bitwise not on an i32 pattern t is
t ^^^ mask32. -/
def mask32 : Nat := 4294967295

/-- First stripping step of socketpair: if every SOCK_STREAM bit is set in
type, clear those bits. -/
def sp_strip_stream (c : LibcC) (t : Nat) : Nat :=
  if t &&& c.SOCK_STREAM = c.SOCK_STREAM then t &&& (mask32 ^^^ c.SOCK_STREAM)
  else t

/-- Whether socketpair records the non-blocking flag: only on Linux targets
(the sole targets where the source evaluates SOCK_NONBLOCK), and only when the
flag survives in type after the SOCK_STREAM strip. -/
def sp_nonblock (c : LibcC) (lin : Bool) (t : Nat) : Bool :=
  lin && decide
    (sp_strip_stream c t &&& c.SOCK_NONBLOCK = c.SOCK_NONBLOCK)

/-- Second stripping step: on Linux targets, clear the SOCK_NONBLOCK bits when
they are all set. -/
def sp_strip_nonblock (c : LibcC) (lin : Bool) (t : Nat) : Nat :=
  let t1 := sp_strip_stream c t
  if lin ∧ t1 &&& c.SOCK_NONBLOCK = c.SOCK_NONBLOCK then
    t1 &&& (mask32 ^^^ c.SOCK_NONBLOCK)
  else t1

/-- The residual of type after all recognized flags are stripped: SOCK_STREAM
always, SOCK_NONBLOCK and SOCK_CLOEXEC only on Linux targets. Any nonzero
residual is an unsupported type. -/
def sp_residual_type (c : LibcC) (lin : Bool) (t : Nat) : Nat :=
  let t2 := sp_strip_nonblock c lin t
  if lin ∧ t2 &&& c.SOCK_CLOEXEC = c.SOCK_CLOEXEC then
    t2 &&& (mask32 ^^^ c.SOCK_CLOEXEC)
  else t2

/-- The socketpair creation syscall. Flags are stripped first, then domain,
residual type and protocol are validated in that order; each failure is a
throw_unsup_format with a descriptive message, and on failure nothing is
allocated (the error carries no world: no buffers and no descriptor-table
entries exist). On success both file descriptions are created and cross
wired, giving World.fresh with the recorded non-blocking mode. -/
def socketpair (c : LibcC) (lin : Bool) (domain type_ protocol : Nat) :
    Except String World :=
  if domain ≠ c.AF_UNIX ∧ domain ≠ c.AF_LOCAL then
    .error
      "socketpair: domain is unsupported, only AF_UNIX and AF_LOCAL are allowed"
  else if sp_residual_type c lin type_ ≠ 0 then
    .error
      "socketpair: type is unsupported, only SOCK_STREAM, SOCK_CLOEXEC and SOCK_NONBLOCK are allowed"
  else if protocol ≠ 0 then
    .error "socketpair: socket protocol is unsupported, only 0 is allowed"
  else
    .ok (World.fresh (sp_nonblock c lin type_))

/-! ## Ring-buffer fidelity for the read dequeue

The source's single VecDeque read call (socket.rs line 142,
readbuf.buf.read(bytes)) uses the standard library's Read impl for
VecDeque of u8, which fills the destination only from the front contiguous
slice of the ring buffer (as_slices().0) and drains what it copied; when the
contents wrap around the ring it therefore transfers fewer bytes than
min(request, len) even though enough data is buffered. The definitions below
model the byte queue at that fidelity for the statements that depend on the
exact per-call dequeue count. -/

/-- The physical state of a VecDeque of u8 as far as one read call can
observe it: the allocation size in slots, the slot index of the first logical
element, and the logical FIFO contents. The front contiguous slice is the
first min(len, cap - head) logical elements; the rest wrap to slot 0. -/
structure ByteDeque where
  cap : Nat
  head : Nat
  contents : List Nat
  deriving DecidableEq

/-- Well-formed ring state: the contents fit in the allocation and the head
slot index lies inside it (a zero-capacity deque is empty with head 0). -/
def ByteDeque.WF (d : ByteDeque) : Prop :=
  d.contents.length ≤ d.cap ∧ (d.head < d.cap ∨ d.cap = 0)

/-- Length of the front contiguous slice, self.as_slices().0.len(). -/
def ByteDeque.frontLen (d : ByteDeque) : Nat :=
  min d.contents.length (d.cap - d.head)

/-- One call of the standard library's Read::read for VecDeque of u8: copy
min(request, front-slice length) bytes out of the front slice, then
drain(..count), which advances the head around the ring. Returns the count
and the deque afterwards. -/
def ByteDeque.read_step (d : ByteDeque) (request : Nat) : Nat × ByteDeque :=
  let k := min request d.frontLen
  (k, { d with head := (d.head + k) % d.cap, contents := d.contents.drop k })

/-- A Buffer whose byte queue is kept at ring fidelity. -/
structure BufferV where
  buf : ByteDeque
  clock : VClock
  buf_has_writer : Bool
  deriving DecidableEq

/-- Read outcome over a ring-fidelity buffer, mirroring ReadEffect. -/
structure ReadEffectV where
  result : OpResult
  buffer : BufferV
  acquired : Option VClock
  data : List Nat
  deriving DecidableEq

/-- SocketPair::read over the ring-fidelity buffer: identical to
SocketPair.read in every branch, except that the single
readbuf.buf.read(bytes) call transfers min(request, front-slice length)
bytes — at most the front contiguous slice — instead of the idealized
min(request, len). -/
def SocketPair.read_vecdeque (is_nonblock : Bool) (readbuf : BufferV)
    (request_byte_size : Nat) : ReadEffectV :=
  if request_byte_size = 0 then
    { result := .success 0, buffer := readbuf, acquired := none, data := [] }
  else if readbuf.buf.contents.isEmpty then
    if !readbuf.buf_has_writer then
      { result := .success 0, buffer := readbuf, acquired := none, data := [] }
    else if is_nonblock then
      { result := .ioError .WouldBlock, buffer := readbuf, acquired := none,
        data := [] }
    else
      { result := .unsupported "socketpair read: blocking is not supported yet",
        buffer := readbuf, acquired := none, data := [] }
  else
    let step := readbuf.buf.read_step request_byte_size
    { result := .success step.1,
      buffer := { readbuf with buf := step.2 },
      acquired := some readbuf.clock,
      data := readbuf.buf.contents.take step.1 }

/-! ## Helper lemmas -/

/-- Unfolding applyOp at a read on endpoint 0. -/
theorem applyOp_oread_false (w : World) (n : Nat) :
    w.applyOp (.oread false n) =
      if w.fd0_alive then
        { w with buf2 := (SocketPair.read w.is_nonblock w.buf2 n).buffer }
      else w := rfl

/-- Unfolding applyOp at a read on endpoint 1. -/
theorem applyOp_oread_true (w : World) (n : Nat) :
    w.applyOp (.oread true n) =
      if w.fd1_alive then
        { w with buf1 := (SocketPair.read w.is_nonblock w.buf1 n).buffer }
      else w := rfl

/-- Unfolding applyOp at a write on endpoint 0. -/
theorem applyOp_owrite_false (w : World) (bytes : List Nat)
    (rel : Option VClock) :
    w.applyOp (.owrite false bytes rel) =
      if w.fd0_alive then
        match (SocketPair.write w.is_nonblock
            (if w.fd1_alive then some w.buf1 else none) bytes rel).buffer with
        | some b => { w with buf1 := b }
        | none => w
      else w := rfl

/-- Unfolding applyOp at a write on endpoint 1. -/
theorem applyOp_owrite_true (w : World) (bytes : List Nat)
    (rel : Option VClock) :
    w.applyOp (.owrite true bytes rel) =
      if w.fd1_alive then
        match (SocketPair.write w.is_nonblock
            (if w.fd0_alive then some w.buf2 else none) bytes rel).buffer with
        | some b => { w with buf2 := b }
        | none => w
      else w := rfl

/-- Unfolding applyOp at a close of endpoint 0. -/
theorem applyOp_oclose_false (w : World) :
    w.applyOp (.oclose false) =
      if w.fd0_alive then
        { w with
          fd0_alive := false,
          buf1 :=
            if w.fd1_alive then { w.buf1 with buf_has_writer := false }
            else w.buf1 }
      else w := rfl

/-- Unfolding applyOp at a close of endpoint 1. -/
theorem applyOp_oclose_true (w : World) :
    w.applyOp (.oclose true) =
      if w.fd1_alive then
        { w with
          fd1_alive := false,
          buf2 :=
            if w.fd0_alive then { w.buf2 with buf_has_writer := false }
            else w.buf2 }
      else w := rfl

/-- The pointwise order on clocks is reflexive. -/
theorem vclock_le_refl (xs : VClock) : VClock.le xs xs = true := by
  induction xs with
  | nil => rfl
  | cons x xs ih => simp [VClock.le, ih, Nat.ble_eq]

/-- Joining never loses history: a clock is below its join with any other. -/
theorem vclock_le_join (xs ys : VClock) :
    VClock.le xs (VClock.join xs ys) = true := by
  induction xs generalizing ys with
  | nil => rfl
  | cons x xs ih =>
    cases ys with
    | nil => simp [VClock.join, vclock_le_refl]
    | cons y ys => simp [VClock.join, VClock.le, ih, Nat.ble_eq]

/-- Reading never grows the buffer. -/
theorem read_buf_len_le (nb : Bool) (rb : Buffer) (n : Nat) :
    (SocketPair.read nb rb n).buffer.buf.length ≤ rb.buf.length := by
  unfold SocketPair.read
  split_ifs <;> simp

/-- Reading never touches the live-writer flag. -/
theorem read_buf_writer_eq (nb : Bool) (rb : Buffer) (n : Nat) :
    (SocketPair.read nb rb n).buffer.buf_has_writer = rb.buf_has_writer := by
  unfold SocketPair.read
  split_ifs <;> rfl

/-- Writing keeps the buffer within capacity. -/
theorem write_buf_len_le (nb : Bool) (wb : Buffer) (bytes : List Nat)
    (rel : Option VClock) (wb2 : Buffer)
    (h : (SocketPair.write nb (some wb) bytes rel).buffer = some wb2)
    (hcap : wb.buf.length ≤ MAX_SOCKETPAIR_BUFFER_CAPACITY) :
    wb2.buf.length ≤ MAX_SOCKETPAIR_BUFFER_CAPACITY := by
  simp only [SocketPair.write] at h
  split_ifs at h with h0 h1 h2
  · simp at h
    subst h
    exact hcap
  · simp at h
    subst h
    exact hcap
  · simp at h
    subst h
    exact hcap
  · have hmin := Nat.min_le_right bytes.length
      (MAX_SOCKETPAIR_BUFFER_CAPACITY - wb.buf.length)
    cases rel <;> simp only [Option.some.injEq] at h <;> subst h <;>
      simp only [List.length_append, List.length_take] <;> omega

/-- Writing never touches the live-writer flag of the target. -/
theorem write_buf_writer_eq (nb : Bool) (wb : Buffer) (bytes : List Nat)
    (rel : Option VClock) (wb2 : Buffer)
    (h : (SocketPair.write nb (some wb) bytes rel).buffer = some wb2) :
    wb2.buf_has_writer = wb.buf_has_writer := by
  simp only [SocketPair.write] at h
  split_ifs at h
  · simp at h
    subst h
    rfl
  · simp at h
    subst h
    rfl
  · simp at h
    subst h
    rfl
  · cases rel <;> simp only [Option.some.injEq] at h <;> subst h <;> rfl

/-- A write whose target did not resolve leaves no resolved target. -/
theorem write_none_buffer (nb : Bool) (bytes : List Nat)
    (rel : Option VClock) :
    (SocketPair.write nb none bytes rel).buffer = none := by
  unfold SocketPair.write
  split_ifs <;> rfl

/-! ## Claim theorems -/

/-- C5: zero-length requests are universal no-ops. For every endpoint state,
a read of zero bytes and a write of the empty byte sequence return success
with count 0 and change nothing: no dequeue, no clock acquire, no append —
even at end-of-file, on a full target buffer, or when the write target no
longer resolves (the zero-length check precedes the broken-pipe check, which
the unresolved-target instance witnesses). -/
theorem zero_length_noop :
    (∀ (nb : Bool) (rb : Buffer),
      SocketPair.read nb rb 0 =
        { result := .success 0, buffer := rb, acquired := none, data := [] }) ∧
    (∀ (nb : Bool) (wbuf : Option Buffer) (rel : Option VClock),
      SocketPair.write nb wbuf [] rel =
        { result := .success 0, buffer := wbuf }) := by
  constructor
  · intro nb rb
    simp [SocketPair.read]
  · intro nb wbuf rel
    simp [SocketPair.write]

/-- C1 counterexample: the read half of the claim as stated — that a read of
max_len > 0 from a non-empty buffer returns min(max_len, len) — is false for
the program. One std read call on the VecDeque transfers at most the front
contiguous ring slice. The wrapped state below is reached from a fresh pair
by writing 8 bytes (the first allocation for u8 elements has exactly 8
slots, head 0), reading 4 (head moves to 4), and writing 4 more (they wrap
to slots 0..3): capacity 8, head 4, 8 bytes buffered, front slice 4. A read
of 8 bytes then returns 4, not min(8, 8) = 8. -/
theorem partial_transfer_law_counterexample :
    (SocketPair.read_vecdeque true
        (BufferV.mk (ByteDeque.mk 8 4 [5, 6, 7, 8, 1, 2, 3, 4]) [] true)
        8).result = .success 4 ∧
    (ByteDeque.mk 8 4 [5, 6, 7, 8, 1, 2, 3, 4]).contents.length = 8 ∧
    (ByteDeque.mk 8 4 [5, 6, 7, 8, 1, 2, 3, 4]).contents ≠ [] ∧
    (ByteDeque.mk 8 4 ([5, 6, 7, 8, 1, 2, 3, 4] : List Nat)).WF ∧
    (SocketPair.read_vecdeque true
        (BufferV.mk (ByteDeque.mk 8 4 [5, 6, 7, 8, 1, 2, 3, 4]) [] true)
        8).result ≠
      .success (min 8
        (ByteDeque.mk 8 4 ([5, 6, 7, 8, 1, 2, 3, 4] : List Nat)).contents.length) := by
  refine ⟨by decide, by decide, by decide, ⟨by decide, Or.inl (by decide)⟩,
    by decide⟩

/-- C1 (amended): partial-transfer law at ring fidelity. A write of non-empty
bytes into a resolved target with available space appends exactly
min(len, available_space) bytes at the tail and returns that count as
success; a read of max_len > 0 from a non-empty buffer dequeues exactly
min(max_len, front-slice length) bytes from the head in FIFO order (the data
returned is the queue's prefix and the remaining queue the matching suffix)
and returns that count — a single call reads at most the front contiguous
slice of the ring, so it can be partial even when the request does not
exceed the buffered data; on a well-formed ring state the count is still at
least 1. -/
theorem partial_transfer_law_amended :
    (∀ (nb : Bool) (wb : Buffer) (bytes : List Nat) (rel : Option VClock),
      bytes ≠ [] →
      0 < MAX_SOCKETPAIR_BUFFER_CAPACITY - wb.buf.length →
      (SocketPair.write nb (some wb) bytes rel).result =
        .success (min bytes.length
          (MAX_SOCKETPAIR_BUFFER_CAPACITY - wb.buf.length)) ∧
      ∃ wb2, (SocketPair.write nb (some wb) bytes rel).buffer = some wb2 ∧
        wb2.buf = wb.buf ++ bytes.take (min bytes.length
          (MAX_SOCKETPAIR_BUFFER_CAPACITY - wb.buf.length)) ∧
        wb2.buf.length = wb.buf.length + min bytes.length
          (MAX_SOCKETPAIR_BUFFER_CAPACITY - wb.buf.length)) ∧
    (∀ (nb : Bool) (rb : BufferV) (n : Nat),
      0 < n → rb.buf.contents ≠ [] →
      (SocketPair.read_vecdeque nb rb n).result =
        .success (min n rb.buf.frontLen) ∧
      (SocketPair.read_vecdeque nb rb n).data =
        rb.buf.contents.take (min n rb.buf.frontLen) ∧
      (SocketPair.read_vecdeque nb rb n).buffer.buf.contents =
        rb.buf.contents.drop (min n rb.buf.frontLen) ∧
      (SocketPair.read_vecdeque nb rb n).data ++
        (SocketPair.read_vecdeque nb rb n).buffer.buf.contents =
        rb.buf.contents ∧
      min n rb.buf.frontLen ≤ n ∧
      (rb.buf.WF → 1 ≤ min n rb.buf.frontLen)) := by
  constructor
  · intro nb wb bytes rel hb hav
    have hlen : ¬ bytes.length = 0 := by simpa using hb
    have hav' : ¬ MAX_SOCKETPAIR_BUFFER_CAPACITY - wb.buf.length = 0 := by
      omega
    unfold SocketPair.write
    rw [if_neg hlen]
    simp only [if_neg hav']
    cases rel <;> simp
  · intro nb rb n hn hb
    have hn' : ¬ n = 0 := by omega
    have hb' : ¬ rb.buf.contents.isEmpty = true := by
      simpa [List.isEmpty_iff] using hb
    have hlen1 : 0 < rb.buf.contents.length := List.length_pos.mpr hb
    have hwfpart : rb.buf.WF → 1 ≤ min n rb.buf.frontLen := by
      rintro ⟨hcap, hh⟩
      have hcap1 : 1 ≤ rb.buf.cap := le_trans hlen1 hcap
      have hfront : 1 ≤ rb.buf.frontLen := by
        unfold ByteDeque.frontLen
        refine Nat.le_min.mpr ⟨hlen1, ?_⟩
        cases hh with
        | inl h => omega
        | inr h => omega
      exact Nat.le_min.mpr ⟨hn, hfront⟩
    unfold SocketPair.read_vecdeque ByteDeque.read_step
    rw [if_neg hn']
    simp only [hb', Bool.false_eq_true, if_false]
    refine ⟨?_, ?_, ?_, ?_, Nat.min_le_left _ _, fun hwf => ?_⟩
    · simp
    · simp
    · simp
    · simp [List.take_append_drop]
    · exact hwfpart hwf

/-- Witness for the amended C1 at concrete inputs: writing 3 bytes into a
buffer holding one byte transfers all 3; reading 8 bytes from the wrapped
8-byte ring state dequeues its 4-byte front slice in order. -/
theorem partial_transfer_law_amended_witness :
    (([9, 9, 9] : List Nat) ≠ [] ∧
      0 < MAX_SOCKETPAIR_BUFFER_CAPACITY -
        (Buffer.mk [1] [] true).buf.length) ∧
    (SocketPair.write true (some (Buffer.mk [1] [] true)) [9, 9, 9]
        none).result =
      .success (min ([9, 9, 9] : List Nat).length
        (MAX_SOCKETPAIR_BUFFER_CAPACITY - (Buffer.mk [1] [] true).buf.length)) ∧
    (0 < 8 ∧
      (BufferV.mk (ByteDeque.mk 8 4 [5, 6, 7, 8, 1, 2, 3, 4]) []
        true).buf.contents ≠ []) ∧
    (SocketPair.read_vecdeque true
        (BufferV.mk (ByteDeque.mk 8 4 [5, 6, 7, 8, 1, 2, 3, 4]) [] true)
        8).data =
      (BufferV.mk (ByteDeque.mk 8 4 [5, 6, 7, 8, 1, 2, 3, 4]) []
        true).buf.contents.take
        (min 8 (BufferV.mk (ByteDeque.mk 8 4 [5, 6, 7, 8, 1, 2, 3, 4]) []
          true).buf.frontLen) := by
  refine ⟨⟨by decide, by decide⟩, ?_, ⟨by decide, by decide⟩, ?_⟩
  · exact (partial_transfer_law_amended.1 true (Buffer.mk [1] [] true)
      [9, 9, 9] none (by decide) (by decide)).1
  · exact (partial_transfer_law_amended.2 true
      (BufferV.mk (ByteDeque.mk 8 4 [5, 6, 7, 8, 1, 2, 3, 4]) [] true) 8
      (by decide) (by decide)).2.1

/-- C4: broken-pipe law. A write of non-empty bytes on an endpoint whose
write-target reference no longer resolves fails with BrokenPipe and transfers
nothing; at the world level, once the reading side of the direction is closed
(its endpoint dead, so the weak upgrade fails), any write on the surviving
endpoint leaves the whole world unchanged. -/
theorem broken_pipe_law :
    (∀ (nb : Bool) (bytes : List Nat) (rel : Option VClock), bytes ≠ [] →
      SocketPair.write nb none bytes rel =
        { result := .ioError .BrokenPipe, buffer := none }) ∧
    (∀ (w : World) (bytes : List Nat) (rel : Option VClock),
      w.fd1_alive = false →
      w.applyOp (.owrite false bytes rel) = w) ∧
    (∀ (w : World) (bytes : List Nat) (rel : Option VClock),
      w.fd0_alive = false →
      w.applyOp (.owrite true bytes rel) = w) := by
  refine ⟨?_, ?_, ?_⟩
  · intro nb bytes rel hb
    have hlen : ¬ bytes.length = 0 := by simpa using hb
    unfold SocketPair.write
    rw [if_neg hlen]
  · intro w bytes rel h1
    unfold World.applyOp
    simp only [h1, Bool.false_eq_true, if_false]
    split_ifs with h0
    · simp only [write_none_buffer]
    · rfl
  · intro w bytes rel h0
    unfold World.applyOp
    simp only [h0, Bool.false_eq_true, if_false]
    split_ifs with h1
    · simp only [write_none_buffer]
    · rfl

/-- Witness for C4: writing one byte with an unresolved target at a concrete
state fails with BrokenPipe, and in a concrete world whose endpoint 1 is dead
a write on endpoint 0 changes nothing. -/
theorem broken_pipe_law_witness :
    (([7] : List Nat) ≠ [] ∧
      SocketPair.write true none [7] none =
        { result := .ioError .BrokenPipe, buffer := none }) ∧
    ((World.mk Buffer.fresh Buffer.fresh true false true).fd1_alive = false ∧
      (World.mk Buffer.fresh Buffer.fresh true false true).applyOp
          (.owrite false [7] none) =
        World.mk Buffer.fresh Buffer.fresh true false true) := by
  refine ⟨⟨by decide, ?_⟩, ⟨rfl, ?_⟩⟩
  · exact broken_pipe_law.1 true [7] none (by decide)
  · exact broken_pipe_law.2.1 (World.mk Buffer.fresh Buffer.fresh true false
      true) [7] none rfl

/-- C10: a successful count of 0 from read is unambiguous. Read returns
success 0 exactly when the request was zero-length or the buffer is empty
with no live writer (end-of-file); whenever max_len > 0 and the buffer is
non-empty, the returned count is at least 1. -/
theorem read_zero_iff :
    ∀ (nb : Bool) (rb : Buffer) (n : Nat),
      ((SocketPair.read nb rb n).result = .success 0 ↔
        (n = 0 ∨ (rb.buf = [] ∧ rb.buf_has_writer = false))) ∧
      (0 < n → rb.buf ≠ [] →
        ∃ k, (SocketPair.read nb rb n).result = .success k ∧ 1 ≤ k) := by
  intro nb rb n
  constructor
  · unfold SocketPair.read
    split_ifs with h0 h1 h2 h3 <;>
      simp_all [List.isEmpty_iff]
  · intro hn hb
    have hn' : ¬ n = 0 := by omega
    have hb' : ¬ rb.buf.isEmpty = true := by
      simpa [List.isEmpty_iff] using hb
    unfold SocketPair.read
    rw [if_neg hn']
    simp only [hb', Bool.false_eq_true, if_false]
    refine ⟨min n rb.buf.length, rfl, ?_⟩
    have : rb.buf.length ≠ 0 := by
      simpa [List.length_eq_zero] using hb
    omega

/-- Witness for C10 at concrete inputs: read of 3 bytes on an empty buffer
with no writer reports success 0, and read of 1 byte on a singleton buffer
returns a positive count. -/
theorem read_zero_iff_witness :
    ((SocketPair.read true (Buffer.mk [] [] false) 3).result = .success 0) ∧
    (0 < 1 ∧ (Buffer.mk [5] [] true).buf ≠ []) ∧
    (∃ k, (SocketPair.read true (Buffer.mk [5] [] true) 1).result =
      .success k ∧ 1 ≤ k) := by
  refine ⟨?_, ⟨by decide, by decide⟩, ?_⟩
  · exact (read_zero_iff true (Buffer.mk [] [] false) 3).1.mpr
      (Or.inr ⟨rfl, rfl⟩)
  · exact (read_zero_iff true (Buffer.mk [5] [] true) 1).2 (by decide)
      (by decide)

/-- C6: causal-clock accounting. A write that transfers at least one byte
(non-empty bytes into a resolved target with free space, which is exactly a
returned count of at least 1) merges the released clock into the target's
clock by join — the old clock stays below the new one, it is never replaced —
and the appended bytes land in the same step; a read that dequeues data
acquires exactly the buffer's accumulated clock; a read that returns success
0 acquires nothing. -/
theorem causal_clock_accounting :
    (∀ (nb : Bool) (wb : Buffer) (bytes : List Nat) (c : VClock),
      bytes ≠ [] →
      MAX_SOCKETPAIR_BUFFER_CAPACITY - wb.buf.length ≠ 0 →
      (SocketPair.write nb (some wb) bytes (some c)).buffer =
        some { buf := wb.buf ++ bytes.take (min bytes.length
                 (MAX_SOCKETPAIR_BUFFER_CAPACITY - wb.buf.length)),
               clock := VClock.join wb.clock c,
               buf_has_writer := wb.buf_has_writer } ∧
      VClock.le wb.clock (VClock.join wb.clock c) = true ∧
      (SocketPair.write nb (some wb) bytes (some c)).result =
        .success (min bytes.length
          (MAX_SOCKETPAIR_BUFFER_CAPACITY - wb.buf.length)) ∧
      1 ≤ min bytes.length
          (MAX_SOCKETPAIR_BUFFER_CAPACITY - wb.buf.length)) ∧
    (∀ (nb : Bool) (rb : Buffer) (n : Nat), 0 < n → rb.buf ≠ [] →
      (SocketPair.read nb rb n).acquired = some rb.clock) ∧
    (∀ (nb : Bool) (rb : Buffer) (n : Nat),
      (SocketPair.read nb rb n).result = .success 0 →
      (SocketPair.read nb rb n).acquired = none) := by
  refine ⟨?_, ?_, ?_⟩
  · intro nb wb bytes c hb hav
    have hlen : ¬ bytes.length = 0 := by simpa using hb
    have h1 : 1 ≤ min bytes.length
        (MAX_SOCKETPAIR_BUFFER_CAPACITY - wb.buf.length) :=
      Nat.le_min.mpr ⟨by omega, by omega⟩
    unfold SocketPair.write
    rw [if_neg hlen]
    simp only [if_neg hav]
    refine ⟨?_, vclock_le_join wb.clock c, ?_, h1⟩ <;> simp
  · intro nb rb n hn hb
    have hn' : ¬ n = 0 := by omega
    have hb' : ¬ rb.buf.isEmpty = true := by
      simpa [List.isEmpty_iff] using hb
    unfold SocketPair.read
    rw [if_neg hn']
    simp [hb']
  · intro nb rb n
    unfold SocketPair.read
    split_ifs with h0 h1 h2 <;>
      simp_all [List.isEmpty_iff, List.length_eq_zero]

/-- Witness for C6 at a concrete input: a one-byte write into an empty buffer
with clock [3] and released clock [1, 4] stores the joined clock [3, 4], and
a read of that byte acquires the stored clock. -/
theorem causal_clock_accounting_witness :
    (([7] : List Nat) ≠ [] ∧
      MAX_SOCKETPAIR_BUFFER_CAPACITY -
        (Buffer.mk [] [3] true).buf.length ≠ 0) ∧
    (SocketPair.write false (some (Buffer.mk [] [3] true)) [7]
        (some [1, 4])).buffer =
      some { buf := (Buffer.mk [] [3] true).buf ++ ([7] : List Nat).take
               (min ([7] : List Nat).length
                 (MAX_SOCKETPAIR_BUFFER_CAPACITY -
                   (Buffer.mk [] [3] true).buf.length)),
             clock := VClock.join (Buffer.mk [] [3] true).clock [1, 4],
             buf_has_writer := true } ∧
    (SocketPair.read false (Buffer.mk [7] [3, 4] true) 1).acquired =
      some ([3, 4] : VClock) := by
  refine ⟨⟨by decide, by decide⟩, ?_, ?_⟩
  · exact (causal_clock_accounting.1 false (Buffer.mk [] [3] true) [7] [1, 4]
      (by decide) (by decide)).1
  · exact causal_clock_accounting.2.1 false (Buffer.mk [7] [3, 4] true) 1
      (by decide) (by decide)

/-- C3: read-on-empty trichotomy and the EOF law. On an empty buffer with a
positive request, the read returns end-of-file (success 0, state untouched)
when the live-writer flag is clear, WouldBlock on a non-blocking endpoint
when the flag is set, and the unsupported-blocking throw on a blocking
endpoint when the flag is set; closing the write-side endpoint of a live pair
clears the peer buffer's flag while keeping its queued bytes; and a read on a
non-empty buffer never reports 0, so EOF appears exactly once the buffer has
drained. -/
theorem read_empty_trichotomy :
    (∀ (nb : Bool) (rb : Buffer) (n : Nat), 0 < n → rb.buf = [] →
      (rb.buf_has_writer = false →
        SocketPair.read nb rb n =
          { result := .success 0, buffer := rb, acquired := none,
            data := [] }) ∧
      (rb.buf_has_writer = true → nb = true →
        (SocketPair.read nb rb n).result = .ioError .WouldBlock) ∧
      (rb.buf_has_writer = true → nb = false →
        (SocketPair.read nb rb n).result =
          .unsupported "socketpair read: blocking is not supported yet")) ∧
    (∀ (w : World), w.fd0_alive = true → w.fd1_alive = true →
      (w.applyOp (.oclose false)).buf1.buf_has_writer = false ∧
      (w.applyOp (.oclose false)).buf1.buf = w.buf1.buf) ∧
    (∀ (nb : Bool) (rb : Buffer) (n : Nat), 0 < n → rb.buf ≠ [] →
      ∃ k, (SocketPair.read nb rb n).result = .success k ∧ 1 ≤ k) := by
  refine ⟨?_, ?_, ?_⟩
  · intro nb rb n hn hb
    have hn' : ¬ n = 0 := by omega
    refine ⟨?_, ?_, ?_⟩
    · intro hw
      unfold SocketPair.read
      rw [if_neg hn']
      simp [hb, hw]
    · intro hw hnb
      unfold SocketPair.read
      rw [if_neg hn']
      simp [hb, hw, hnb]
    · intro hw hnb
      unfold SocketPair.read
      rw [if_neg hn']
      simp [hb, hw, hnb]
  · intro w h0 h1
    unfold World.applyOp
    simp [h0, h1]
  · intro nb rb n hn hb
    have hn' : ¬ n = 0 := by omega
    have hb' : ¬ rb.buf.isEmpty = true := by
      simpa [List.isEmpty_iff] using hb
    have hlen : rb.buf.length ≠ 0 := by
      simpa [List.length_eq_zero] using hb
    unfold SocketPair.read
    rw [if_neg hn']
    simp only [hb', Bool.false_eq_true, if_false]
    exact ⟨min n rb.buf.length, rfl, Nat.le_min.mpr ⟨by omega, by omega⟩⟩

/-- Witness for C3 at concrete inputs: on an empty buffer, request 1 gives
EOF when the writer flag is clear and WouldBlock on a non-blocking endpoint
when it is set; closing endpoint 0 of a fresh pair clears buf1's flag. -/
theorem read_empty_trichotomy_witness :
    (0 < 1 ∧ (Buffer.mk [] [] false).buf = [] ∧
      (Buffer.mk [] [] false).buf_has_writer = false) ∧
    SocketPair.read true (Buffer.mk [] [] false) 1 =
      { result := .success 0, buffer := Buffer.mk [] [] false,
        acquired := none, data := [] } ∧
    (SocketPair.read true (Buffer.mk [] [] true) 1).result =
      .ioError .WouldBlock ∧
    ((World.fresh true).applyOp (.oclose false)).buf1.buf_has_writer =
      false := by
  refine ⟨⟨by decide, rfl, rfl⟩, ?_, ?_, ?_⟩
  · exact (read_empty_trichotomy.1 true (Buffer.mk [] [] false) 1 (by decide)
      rfl).1 rfl
  · exact (read_empty_trichotomy.1 true (Buffer.mk [] [] true) 1 (by decide)
      rfl).2.1 rfl rfl
  · exact (read_empty_trichotomy.2.1 (World.fresh true) rfl rfl).1

/-- C7: readiness bits. The readiness query touches no state (the world is
unchanged by a query operation), and its three bits are characterized
exactly: epollout holds iff the write target resolves with nonzero available
space, epollrdhup holds iff the peer endpoint no longer resolves, and epollin
holds iff the endpoint's own buffer is non-empty or epollrdhup holds (a
destroyed peer forces readable even on an empty buffer). -/
theorem readiness_bits :
    (∀ (rb : Buffer) (wbuf : Option Buffer) (peer : Bool),
      ((SocketPair.get_epoll_ready_events rb wbuf peer).epollout = true ↔
        ∃ wb, wbuf = some wb ∧
          MAX_SOCKETPAIR_BUFFER_CAPACITY - wb.buf.length ≠ 0) ∧
      ((SocketPair.get_epoll_ready_events rb wbuf peer).epollrdhup = true ↔
        peer = false) ∧
      ((SocketPair.get_epoll_ready_events rb wbuf peer).epollin = true ↔
        (rb.buf ≠ [] ∨ peer = false))) ∧
    (∀ (w : World) (ep : Bool), w.applyOp (.oquery ep) = w) := by
  constructor
  · intro rb wbuf peer
    cases wbuf <;> cases peer <;>
      by_cases hb : rb.buf = [] <;>
        simp_all [SocketPair.get_epoll_ready_events, EpollReadyEvents.new,
          List.isEmpty_iff] <;>
      split_ifs <;> simp_all
  · intro w ep
    rfl

/-- Witness for C7 at a concrete state: with an empty own buffer, a full
write target and a destroyed peer, the query reports epollout false,
epollrdhup true and epollin true. -/
theorem readiness_bits_witness :
    ((SocketPair.get_epoll_ready_events (Buffer.mk [] [] true)
        (some (Buffer.mk [] [] true)) false).epollrdhup = true ↔
      (false : Bool) = false) ∧
    ((SocketPair.get_epoll_ready_events (Buffer.mk [] [] true)
        (some (Buffer.mk [] [] true)) false).epollin = true ↔
      ((Buffer.mk [] [] true).buf ≠ [] ∨ (false : Bool) = false)) := by
  exact ⟨(readiness_bits.1 (Buffer.mk [] [] true)
      (some (Buffer.mk [] [] true)) false).2.1,
    (readiness_bits.1 (Buffer.mk [] [] true)
      (some (Buffer.mk [] [] true)) false).2.2⟩

/-- The capacity invariant on a world: both buffers within capacity. -/
def BufLenInv (w : World) : Prop :=
  w.buf1.buf.length ≤ MAX_SOCKETPAIR_BUFFER_CAPACITY ∧
  w.buf2.buf.length ≤ MAX_SOCKETPAIR_BUFFER_CAPACITY

/-- Capacity bound through an optional write target. -/
theorem write_opt_len (nb : Bool) (wbopt : Option Buffer) (bytes : List Nat)
    (rel : Option VClock) (b : Buffer)
    (hgood : ∀ wb, wbopt = some wb →
      wb.buf.length ≤ MAX_SOCKETPAIR_BUFFER_CAPACITY)
    (hb : (SocketPair.write nb wbopt bytes rel).buffer = some b) :
    b.buf.length ≤ MAX_SOCKETPAIR_BUFFER_CAPACITY := by
  cases wbopt with
  | none =>
    rw [write_none_buffer] at hb
    cases hb
  | some wb => exact write_buf_len_le nb wb bytes rel b hb (hgood wb rfl)

/-- Live-writer flag through an optional write target. -/
theorem write_opt_writer (nb : Bool) (wbopt : Option Buffer)
    (bytes : List Nat) (rel : Option VClock) (b : Buffer)
    (hgood : ∀ wb, wbopt = some wb → wb.buf_has_writer = false)
    (hb : (SocketPair.write nb wbopt bytes rel).buffer = some b) :
    b.buf_has_writer = false := by
  cases wbopt with
  | none =>
    rw [write_none_buffer] at hb
    cases hb
  | some wb =>
    rw [write_buf_writer_eq nb wb bytes rel b hb]
    exact hgood wb rfl

/-- Every single operation preserves the capacity invariant. -/
theorem applyOp_buflen (w : World) (op : Op) (h : BufLenInv w) :
    BufLenInv (w.applyOp op) := by
  obtain ⟨h1, h2⟩ := h
  cases op with
  | oread ep n =>
    cases ep with
    | false =>
      rw [applyOp_oread_false]
      split_ifs
      · exact ⟨h1, le_trans (read_buf_len_le w.is_nonblock w.buf2 n) h2⟩
      · exact ⟨h1, h2⟩
    | true =>
      rw [applyOp_oread_true]
      split_ifs
      · exact ⟨le_trans (read_buf_len_le w.is_nonblock w.buf1 n) h1, h2⟩
      · exact ⟨h1, h2⟩
  | owrite ep bytes rel =>
    cases ep with
    | false =>
      rw [applyOp_owrite_false]
      split_ifs with ha hf
      · cases hw : (SocketPair.write w.is_nonblock (some w.buf1) bytes
            rel).buffer with
        | none =>
          simp only [hw]
          exact ⟨h1, h2⟩
        | some b =>
          simp only [hw]
          exact ⟨write_buf_len_le _ _ _ _ _ hw h1, h2⟩
      · rw [write_none_buffer]
        exact ⟨h1, h2⟩
      · exact ⟨h1, h2⟩
    | true =>
      rw [applyOp_owrite_true]
      split_ifs with ha hf
      · cases hw : (SocketPair.write w.is_nonblock (some w.buf2) bytes
            rel).buffer with
        | none =>
          simp only [hw]
          exact ⟨h1, h2⟩
        | some b =>
          simp only [hw]
          exact ⟨h1, write_buf_len_le _ _ _ _ _ hw h2⟩
      · rw [write_none_buffer]
        exact ⟨h1, h2⟩
      · exact ⟨h1, h2⟩
  | oclose ep =>
    cases ep with
    | false =>
      rw [applyOp_oclose_false]
      split_ifs <;> exact ⟨h1, h2⟩
    | true =>
      rw [applyOp_oclose_true]
      split_ifs <;> exact ⟨h1, h2⟩
  | oquery ep => exact ⟨h1, h2⟩

/-- The capacity invariant is preserved by every operation sequence. -/
theorem foldl_buflen (ops : List Op) :
    ∀ (w : World), BufLenInv w → BufLenInv (ops.foldl World.applyOp w) := by
  induction ops with
  | nil => exact fun w h => h
  | cons op ops ih => exact fun w h => ih _ (applyOp_buflen w op h)

/-- C2: capacity invariant. Starting from a freshly created pair, no sequence
of operations ever pushes either buffer past the fixed capacity 212992; and a
write of non-empty bytes against a buffer already at capacity appends zero
bytes (the buffer is returned untouched) and yields WouldBlock on a
non-blocking endpoint and the unsupported-blocking throw on a blocking one. -/
theorem capacity_invariant :
    (∀ (nb : Bool) (ops : List Op),
      (ops.foldl World.applyOp (World.fresh nb)).buf1.buf.length ≤
        MAX_SOCKETPAIR_BUFFER_CAPACITY ∧
      (ops.foldl World.applyOp (World.fresh nb)).buf2.buf.length ≤
        MAX_SOCKETPAIR_BUFFER_CAPACITY) ∧
    (∀ (nb : Bool) (wb : Buffer) (bytes : List Nat) (rel : Option VClock),
      wb.buf.length = MAX_SOCKETPAIR_BUFFER_CAPACITY → bytes ≠ [] →
      SocketPair.write nb (some wb) bytes rel =
        { result :=
            if nb then .ioError .WouldBlock
            else .unsupported "socketpair write: blocking is not supported yet",
          buffer := some wb }) := by
  constructor
  · intro nb ops
    exact foldl_buflen ops (World.fresh nb)
      ⟨by simp [World.fresh, Buffer.fresh], by simp [World.fresh, Buffer.fresh]⟩
  · intro nb wb bytes rel hfull hb
    have hlen : ¬ bytes.length = 0 := by simpa using hb
    have hav : MAX_SOCKETPAIR_BUFFER_CAPACITY - wb.buf.length = 0 := by omega
    unfold SocketPair.write
    rw [if_neg hlen]
    cases nb <;> simp [hav]

/-- Witness for C2 at a concrete input: a buffer filled to exactly 212992
bytes rejects a one-byte non-blocking write with WouldBlock and stays
untouched. -/
theorem capacity_invariant_witness :
    ((Buffer.mk (List.replicate MAX_SOCKETPAIR_BUFFER_CAPACITY 0) [] true).buf.length
        = MAX_SOCKETPAIR_BUFFER_CAPACITY ∧ ([4] : List Nat) ≠ []) ∧
    SocketPair.write true
        (some (Buffer.mk (List.replicate MAX_SOCKETPAIR_BUFFER_CAPACITY 0) []
          true)) [4] none =
      { result := .ioError .WouldBlock,
        buffer := some (Buffer.mk
          (List.replicate MAX_SOCKETPAIR_BUFFER_CAPACITY 0) [] true) } := by
  have hlen : (Buffer.mk (List.replicate MAX_SOCKETPAIR_BUFFER_CAPACITY 0) []
      true).buf.length = MAX_SOCKETPAIR_BUFFER_CAPACITY := by
    simp
  refine ⟨⟨hlen, by decide⟩, ?_⟩
  have h := capacity_invariant.2 true
    (Buffer.mk (List.replicate MAX_SOCKETPAIR_BUFFER_CAPACITY 0) [] true)
    [4] none hlen (by decide)
  simpa using h

/-- C9: close semantics and frame. Close never fails; with a still-resolvable
write target it clears exactly that buffer's live-writer flag, leaving the
byte queue and the clock untouched; at the world level, closing endpoint 0 of
a fully live pair changes nothing but its own liveness and the peer buffer's
flag (so already-written data stays readable); no operation ever turns a
cleared flag back on, and the flag starts true only at pair creation. -/
theorem close_semantics :
    (∀ (wbuf : Option Buffer), (SocketPair.close wbuf).1 = .success 0) ∧
    (∀ (wb : Buffer),
      SocketPair.close (some wb) =
        (.success 0, some { wb with buf_has_writer := false })) ∧
    (∀ (w : World), w.fd0_alive = true → w.fd1_alive = true →
      w.applyOp (.oclose false) =
        { w with fd0_alive := false,
                 buf1 := { w.buf1 with buf_has_writer := false } }) ∧
    (∀ (w : World) (op : Op),
      (w.buf1.buf_has_writer = false →
        (w.applyOp op).buf1.buf_has_writer = false) ∧
      (w.buf2.buf_has_writer = false →
        (w.applyOp op).buf2.buf_has_writer = false)) ∧
    (∀ nb, (World.fresh nb).buf1.buf_has_writer = true ∧
      (World.fresh nb).buf2.buf_has_writer = true) := by
  refine ⟨?_, ?_, ?_, ?_, ?_⟩
  · intro wbuf
    rfl
  · intro wb
    rfl
  · intro w h0 h1
    unfold World.applyOp
    simp [h0, h1]
  · intro w op
    cases op with
    | oread ep n =>
      cases ep with
      | false =>
        rw [applyOp_oread_false]
        split_ifs
        · exact ⟨fun h => h,
            fun h => by simpa [read_buf_writer_eq] using h⟩
        · exact ⟨fun h => h, fun h => h⟩
      | true =>
        rw [applyOp_oread_true]
        split_ifs
        · exact ⟨fun h => by simpa [read_buf_writer_eq] using h,
            fun h => h⟩
        · exact ⟨fun h => h, fun h => h⟩
    | owrite ep bytes rel =>
      cases ep with
      | false =>
        rw [applyOp_owrite_false]
        split_ifs with ha hf
        · cases hw : (SocketPair.write w.is_nonblock (some w.buf1) bytes
              rel).buffer with
          | none =>
            simp only [hw]
            exact ⟨fun h => h, fun h => h⟩
          | some b =>
            simp only [hw]
            refine ⟨fun h => ?_, fun h => h⟩
            rw [show b.buf_has_writer = w.buf1.buf_has_writer from
              write_buf_writer_eq _ _ _ _ _ hw]
            exact h
        · rw [write_none_buffer]
          exact ⟨fun h => h, fun h => h⟩
        · exact ⟨fun h => h, fun h => h⟩
      | true =>
        rw [applyOp_owrite_true]
        split_ifs with ha hf
        · cases hw : (SocketPair.write w.is_nonblock (some w.buf2) bytes
              rel).buffer with
          | none =>
            simp only [hw]
            exact ⟨fun h => h, fun h => h⟩
          | some b =>
            simp only [hw]
            refine ⟨fun h => h, fun h => ?_⟩
            rw [show b.buf_has_writer = w.buf2.buf_has_writer from
              write_buf_writer_eq _ _ _ _ _ hw]
            exact h
        · rw [write_none_buffer]
          exact ⟨fun h => h, fun h => h⟩
        · exact ⟨fun h => h, fun h => h⟩
    | oclose ep =>
      cases ep with
      | false =>
        rw [applyOp_oclose_false]
        split_ifs <;>
          exact ⟨fun h => by simp_all, fun h => h⟩
      | true =>
        rw [applyOp_oclose_true]
        split_ifs <;>
          exact ⟨fun h => h, fun h => by simp_all⟩
    | oquery ep => exact ⟨fun h => h, fun h => h⟩
  · intro nb
    exact ⟨rfl, rfl⟩

/-- Witness for C9 at a concrete input: closing endpoint 0 of a fresh
non-blocking pair flips only fd0_alive and buf1's writer flag, and a
subsequent operation keeps the cleared flag cleared. -/
theorem close_semantics_witness :
    ((World.fresh true).fd0_alive = true ∧ (World.fresh true).fd1_alive = true) ∧
    (World.fresh true).applyOp (.oclose false) =
      { World.fresh true with
        fd0_alive := false,
        buf1 := { (World.fresh true).buf1 with buf_has_writer := false } } ∧
    ((((World.fresh true).applyOp (.oclose false)).buf1.buf_has_writer = false) ∧
      ((((World.fresh true).applyOp (.oclose false)).applyOp
        (.oread true 5)).buf1.buf_has_writer = false)) := by
  refine ⟨⟨rfl, rfl⟩, ?_, ?_, ?_⟩
  · exact close_semantics.2.2.1 (World.fresh true) rfl rfl
  · decide
  · exact (close_semantics.2.2.2.1 ((World.fresh true).applyOp (.oclose false))
      (.oread true 5)).1 (by decide)

/-- C8: socketpair creation validation. With flags stripped first, the checks
run in source order: a domain that is neither AF_UNIX nor AF_LOCAL throws the
descriptive unsupported-domain message; with a valid domain, any residual
type bits after stripping SOCK_STREAM (plus SOCK_NONBLOCK and SOCK_CLOEXEC on
Linux targets only) throw the unsupported-type message; with a valid domain
and a clean type, a nonzero protocol throws the unsupported-protocol message.
A failed call returns only an error, so no buffers and no descriptor-table
entries exist. On a non-Linux target SOCK_NONBLOCK is not stripped, so asking
for it fails as an unsupported type, while the same request succeeds on Linux
with non-blocking mode recorded. -/
theorem socketpair_validation :
    (∀ (c : LibcC) (lin : Bool) (d t p : Nat),
      d ≠ c.AF_UNIX → d ≠ c.AF_LOCAL →
      socketpair c lin d t p = .error
        "socketpair: domain is unsupported, only AF_UNIX and AF_LOCAL are allowed") ∧
    (∀ (c : LibcC) (lin : Bool) (d t p : Nat),
      (d = c.AF_UNIX ∨ d = c.AF_LOCAL) → sp_residual_type c lin t ≠ 0 →
      socketpair c lin d t p = .error
        "socketpair: type is unsupported, only SOCK_STREAM, SOCK_CLOEXEC and SOCK_NONBLOCK are allowed") ∧
    (∀ (c : LibcC) (lin : Bool) (d t p : Nat),
      (d = c.AF_UNIX ∨ d = c.AF_LOCAL) → sp_residual_type c lin t = 0 →
      p ≠ 0 →
      socketpair c lin d t p = .error
        "socketpair: socket protocol is unsupported, only 0 is allowed") ∧
    (socketpair linuxC false 1 2049 0 = .error
      "socketpair: type is unsupported, only SOCK_STREAM, SOCK_CLOEXEC and SOCK_NONBLOCK are allowed") ∧
    (socketpair linuxC true 1 2049 0 = .ok (World.fresh true)) := by
  refine ⟨?_, ?_, ?_, by rfl, by rfl⟩
  · intro c lin d t p hd1 hd2
    unfold socketpair
    rw [if_pos ⟨hd1, hd2⟩]
  · intro c lin d t p hd ht
    unfold socketpair
    rw [if_neg (by
      rintro ⟨a, b⟩
      cases hd with
      | inl h => exact a h
      | inr h => exact b h)]
    rw [if_pos ht]
  · intro c lin d t p hd ht hp
    unfold socketpair
    rw [if_neg (by
      rintro ⟨a, b⟩
      cases hd with
      | inl h => exact a h
      | inr h => exact b h)]
    rw [if_neg (by simpa using ht)]
    rw [if_pos hp]

/-- Witness for C8 at concrete inputs: domain 7 is rejected as an unsupported
domain, and protocol 3 with a clean stream type on Linux is rejected as an
unsupported protocol. -/
theorem socketpair_validation_witness :
    ((7 : Nat) ≠ linuxC.AF_UNIX ∧ (7 : Nat) ≠ linuxC.AF_LOCAL) ∧
    socketpair linuxC true 7 1 0 = .error
      "socketpair: domain is unsupported, only AF_UNIX and AF_LOCAL are allowed" ∧
    ((1 : Nat) = linuxC.AF_UNIX ∨ (1 : Nat) = linuxC.AF_LOCAL) ∧
    sp_residual_type linuxC true 1 = 0 ∧
    socketpair linuxC true 1 1 3 = .error
      "socketpair: socket protocol is unsupported, only 0 is allowed" := by
  refine ⟨⟨by decide, by decide⟩, ?_, Or.inl (by decide), by decide, ?_⟩
  · exact socketpair_validation.1 linuxC true 7 1 0 (by decide) (by decide)
  · exact socketpair_validation.2.2.1 linuxC true 1 1 3 (Or.inl (by decide))
      (by decide) (by decide)

end MiriSocket
